import Mathlib

/-!
Shallow embedding of the process-metrics pipeline of the
`OS-Project-Linux` repository (files `src/proc_reader.rs` and
`src/main.rs`), together with theorems settling the spec's claims.

File contents are modelled as Lean `String`s; reads of the three per-pid
kernel records are modelled as `Except IOError String` inputs.  A Rust
panic (out-of-bounds slice index, `unwrap` on `None`) is modelled by an
outer `Option`: `none` is a panic.  Rust `f64` arithmetic in the CPU
estimator is modelled over `ℚ`, with `f64::round` (round half away from
zero) made explicit.
-/

namespace ProcInspector

/-- Kinds of I/O failure relevant to the spec's error taxonomy. -/
inductive IOError where
  | notFound
  | permissionDenied
  | other
deriving DecidableEq, Repr

/-- Rust `str::split_whitespace` on a list of characters: maximal runs of
non-whitespace characters, empty tokens dropped. -/
def splitWSGo : List Char → List Char → List String
  | [], cur => if cur.isEmpty then [] else [String.mk cur.reverse]
  | c :: rest, cur =>
    if c.isWhitespace then
      if cur.isEmpty then splitWSGo rest []
      else String.mk cur.reverse :: splitWSGo rest []
    else splitWSGo rest (c :: cur)

/-- Rust `str::split_whitespace` on a `String`. -/
def splitWhitespace (s : String) : List String :=
  splitWSGo s.data []

/-- Helper for `strLines`: strip one trailing carriage return (a `\r\n`
line ending). -/
def stripCR (l : List Char) : List Char :=
  match l.getLast? with
  | some c => if c = '\x0d' then l.dropLast else l
  | none => l

/-- Rust `str::lines` on a list of characters: split at `\n` (stripping a
preceding `\r`), final line ending optional. -/
def linesGo : List Char → List Char → List String
  | [], cur => if cur.isEmpty then [] else [String.mk cur.reverse]
  | c :: rest, cur =>
    if c = '\x0a' then String.mk (stripCR cur.reverse) :: linesGo rest []
    else linesGo rest (c :: cur)

/-- Rust `str::lines` on a `String`. -/
def strLines (s : String) : List String :=
  linesGo s.data []

/-- Boolean list-prefix test, modelling Rust `str::starts_with`. -/
def prefOf : List Char → List Char → Bool
  | [], _ => true
  | _ :: _, [] => false
  | a :: as, b :: bs => a = b && prefOf as bs

/-- Rust `str::trim_matches(c)`: remove every leading and trailing
occurrence of the character `c`. -/
def trimMatches (c : Char) (s : String) : String :=
  String.mk (((s.data.dropWhile (· = c)).reverse.dropWhile (· = c)).reverse)

/-- Decimal value of a digit list (ASCII digits). -/
def digitsVal (l : List Char) : Nat :=
  l.foldl (fun acc c => acc * 10 + (c.toNat - 48)) 0

/-- Rust `str::parse::<u64>()` as an `Option`: an optional leading `+`,
then one or more ASCII digits, value below `2^64`. -/
def parseU64 (s : String) : Option Nat :=
  let digits := match s.data with
    | '+' :: rest => rest
    | l => l
  if digits.isEmpty then none
  else if digits.all Char.isDigit then
    if digitsVal digits < 2 ^ 64 then some (digitsVal digits) else none
  else none

/-- Rust `str::parse::<u32>()` as an `Option`: an optional leading `+`,
then one or more ASCII digits, value below `2^32`. -/
def parseU32 (s : String) : Option Nat :=
  let digits := match s.data with
    | '+' :: rest => rest
    | l => l
  if digits.isEmpty then none
  else if digits.all Char.isDigit then
    if digitsVal digits < 2 ^ 32 then some (digitsVal digits) else none
  else none

/-- Rust `f64::round`: round to the nearest integer, halves away from
zero. -/
def rustRound (x : ℚ) : ℚ :=
  if x < 0 then -(((⌊-x + 1 / 2⌋ : ℤ) : ℚ)) else ((⌊x + 1 / 2⌋ : ℤ) : ℚ)

/-- CPU-percent computation of `parse_stat` (src/proc_reader.rs lines
50-61): elapsed seconds since process start, total CPU seconds, percent
rounded; `0.0` when `elapsed <= 0`. -/
def cpuPercent (utime stime starttime : ℕ) (tps uptime : ℚ) : ℚ :=
  let elapsed : ℚ := uptime - (starttime : ℚ) / tps
  let total : ℚ := ((utime : ℚ) + (stime : ℚ)) / tps
  if 0 < elapsed then rustRound (total / elapsed * 100) else 0

/-- Metrics record assembled by `get_process_metrics`
(src/proc_reader.rs lines 7-16). -/
structure ProcessMetrics where
  pid : ℕ
  comm : String
  user : String
  cpu_time : ℚ
  mem_usage : ℕ
  io_read_bytes : ℕ
  io_write_bytes : ℕ
deriving DecidableEq, Repr

/-- Embedding of `parse_stat` (src/proc_reader.rs lines 23-64) applied to
the stat file's content, with the host's clock-ticks-per-second and the
system uptime passed as point-in-time inputs.  `none` models the panic on
an out-of-bounds index into the whitespace-split fields. -/
def parseStat (content : String) (tps uptime : ℚ) : Option (String × ℚ) :=
  let parts := splitWhitespace content
  match parts[1]?, parts[13]?, parts[14]?, parts[21]? with
  | some p1, some p13, some p14, some p21 =>
    some (trimMatches ')' (trimMatches '(' p1),
      cpuPercent ((parseU64 p13).getD 0) ((parseU64 p14).getD 0)
        ((parseU64 p21).getD 0) tps uptime)
  | _, _, _, _ => none

/-- Line loop of `parse_status` (src/proc_reader.rs lines 67-77): return
at the first line starting with `VmRSS:`; `none` models the panic when
that line has no second token. -/
def statusGo : List String → Option ℕ
  | [] => some 0
  | l :: rest =>
    if prefOf "VmRSS:".data l.data then
      (splitWhitespace l)[1]?.map (fun t => (parseU64 t).getD 0)
    else statusGo rest

/-- Embedding of `parse_status` applied to the status file's content. -/
def parseStatus (content : String) : Option ℕ :=
  statusGo (strLines content)

/-- Line loop of `parse_io` (src/proc_reader.rs lines 80-95): fold over
all lines, updating `read_bytes` and `write_bytes`; `none` models the
panic when a matching line has no second token. -/
def ioGo : List String → ℕ → ℕ → Option (ℕ × ℕ)
  | [], r, w => some (r, w)
  | l :: rest, r, w =>
    if prefOf "read_bytes:".data l.data then
      match (splitWhitespace l)[1]? with
      | none => none
      | some t => ioGo rest ((parseU64 t).getD 0) w
    else if prefOf "write_bytes:".data l.data then
      match (splitWhitespace l)[1]? with
      | none => none
      | some t => ioGo rest r ((parseU64 t).getD 0)
    else ioGo rest r w

/-- Embedding of `parse_io` applied to the io file's content. -/
def parseIO (content : String) : Option (ℕ × ℕ) :=
  ioGo (strLines content) 0 0

/-- The three per-pid kernel records a snapshot reads, each either the
file's content or the I/O error the read failed with. -/
structure ProcFiles where
  statFile : Except IOError String
  statusFile : Except IOError String
  ioFile : Except IOError String

/-- Embedding of `get_process_metrics` (src/proc_reader.rs lines 98-115):
`?` on each read propagates the `Except.error`; the outer `Option` is
`none` when a parse panics. -/
def getProcessMetrics (pid : ℕ) (files : ProcFiles) (tps uptime : ℚ) :
    Option (Except IOError ProcessMetrics) :=
  match files.statFile with
  | .error e => some (.error e)
  | .ok statContent =>
    match parseStat statContent tps uptime with
    | none => none
    | some (comm, cpu) =>
      match files.statusFile with
      | .error e => some (.error e)
      | .ok statusContent =>
        match parseStatus statusContent with
        | none => none
        | some mem =>
          match files.ioFile with
          | .error e => some (.error e)
          | .ok ioContent =>
            match parseIO ioContent with
            | none => none
            | some (r, w) =>
              some (.ok ⟨pid, comm, "user", cpu, mem, r, w⟩)

/-- Pid enumeration of `monitor_processes` (src/main.rs lines 51-54):
keep the directory entries whose name parses as a `u32`. -/
def enumeratePids (entries : List String) : List ℕ :=
  entries.filterMap parseU32

/-- Collection pass of `monitor_processes` (src/main.rs lines 51-68):
for each directory entry that parses as a pid, fetch its metrics; an
`Err` result is silently skipped (`if let Ok`), a panic (`none`) aborts
the pass. -/
def collectAll (entries : List String) (env : ℕ → ProcFiles)
    (tps uptime : ℚ) : Option (List ProcessMetrics) :=
  match entries with
  | [] => some []
  | e :: rest =>
    match parseU32 e with
    | none => collectAll rest env tps uptime
    | some pid =>
      match getProcessMetrics pid (env pid) tps uptime with
      | none => none
      | some (.error _) => collectAll rest env tps uptime
      | some (.ok m) => (collectAll rest env tps uptime).map (m :: ·)

/-- Rust `u64` wrapping subtraction (release build): `a - b` modulo
`2^64`, for operands below `2^64`. -/
def u64sub (a b : ℕ) : ℕ :=
  (a + 2 ^ 64 - b % 2 ^ 64) % 2 ^ 64

/-- Line loop of `get_memory_stats` (src/main.rs lines 25-35): scan all
lines, last matching line wins for each counter; `none` models the panic
of `.nth(1).unwrap()` or `.parse().unwrap()` on a matching line. -/
def memGo : List String → ℕ → ℕ → ℕ → ℕ → Option (ℕ × ℕ × ℕ × ℕ)
  | [], t, f, b, c => some (t, f, b, c)
  | l :: rest, t, f, b, c =>
    if prefOf "MemTotal:".data l.data then
      match (splitWhitespace l)[1]? with
      | none => none
      | some tok =>
        match parseU64 tok with
        | none => none
        | some v => memGo rest v f b c
    else if prefOf "MemFree:".data l.data then
      match (splitWhitespace l)[1]? with
      | none => none
      | some tok =>
        match parseU64 tok with
        | none => none
        | some v => memGo rest t v b c
    else if prefOf "Buffers:".data l.data then
      match (splitWhitespace l)[1]? with
      | none => none
      | some tok =>
        match parseU64 tok with
        | none => none
        | some v => memGo rest t f v c
    else if prefOf "Cached:".data l.data then
      match (splitWhitespace l)[1]? with
      | none => none
      | some tok =>
        match parseU64 tok with
        | none => none
        | some v => memGo rest t f b v
    else memGo rest t f b c

/-- Embedding of `get_memory_stats` (src/main.rs lines 18-39) applied to
the meminfo file's content: `(total/1024, used/1024)` in MB, where
`used = total - free - buffers - cached` with `u64` semantics. -/
def getMemoryStats (content : String) : Option (ℕ × ℕ) :=
  (memGo (strLines content) 0 0 0 0).map
    (fun r =>
      match r with
      | (t, f, b, c) => (t / 1024, u64sub (u64sub (u64sub t f) b) c / 1024))

/-! ### Concrete inputs used by witnesses and counterexamples -/

/-- Synthetic stat line of the spec's end-to-end example: pid 1234, name
`myproc`, user ticks 100 (index 13), kernel ticks 50 (index 14), start
ticks 1000 (index 21); 22 whitespace-separated tokens. -/
def statLineMyproc : String :=
  "1234 (myproc) S 1 1 1 1 1 1 1 1 1 1 100 50 0 0 0 0 0 0 1000"

/-- Stat line whose command name `weird)name` contains a closing
parenthesis, rendered `(weird)name)`. -/
def statLineWeird : String :=
  "1234 (weird)name) S 1 1 1 1 1 1 1 1 1 1 100 50 0 0 0 0 0 0 1000"

/-- Stat line whose command name `a b` contains a space, rendered
`(a b)`; the extra trailing token keeps 22 tokens after the split shifts
everything by one. -/
def statLineSpace : String :=
  "1234 (a b) S 1 1 1 1 1 1 1 1 1 1 100 50 0 0 0 0 0 0 1000 9"

/-- Stat line whose command name `xyz)` ends with a closing parenthesis,
rendered `(xyz))`. -/
def statLineTrail : String :=
  "1234 (xyz)) S 1 1 1 1 1 1 1 1 1 1 100 50 0 0 0 0 0 0 1000"

/-- Stat line whose user-ticks field (index 13) is the non-numeric token
`abc`. -/
def statLineAbc : String :=
  "1234 (myproc) S 1 1 1 1 1 1 1 1 1 1 abc 50 0 0 0 0 0 0 1000"

/-! ### Theorems for the claims -/

/-- Claim C1: with positive ticks-per-second and positive elapsed time,
the CPU-percent estimate equals `round(100 * (user+kernel)/tps / elapsed)`
with round-half-away-from-zero, and is non-negative. -/
theorem cpu_percent_matches_round (u s st : ℕ) (tps uptime : ℚ)
    (htps : 0 < tps) (h : 0 < uptime - (st : ℚ) / tps) :
    cpuPercent u s st tps uptime
      = rustRound (100 * (((u : ℚ) + (s : ℚ)) / tps) / (uptime - (st : ℚ) / tps))
    ∧ 0 ≤ cpuPercent u s st tps uptime := by
  have hx : 0 ≤ ((u : ℚ) + (s : ℚ)) / tps / (uptime - (st : ℚ) / tps) * 100 := by
    have hnum : 0 ≤ ((u : ℚ) + (s : ℚ)) / tps := by positivity
    positivity
  constructor
  · simp only [cpuPercent]
    rw [if_pos h]
    exact congrArg rustRound (by ring)
  · simp only [cpuPercent]
    rw [if_pos h]
    unfold rustRound
    rw [if_neg (not_lt.mpr hx)]
    have hfloor : (0 : ℤ)
        ≤ ⌊((u : ℚ) + (s : ℚ)) / tps / (uptime - (st : ℚ) / tps) * 100 + 1 / 2⌋ :=
      Int.floor_nonneg.mpr (by linarith)
    exact_mod_cast hfloor

/-- Witness for C1 at the spec's end-to-end example: user ticks 100,
kernel ticks 50, start ticks 1000, 100 ticks per second, uptime 20
seconds gives exactly 15. -/
theorem cpu_percent_matches_round_witness :
    (cpuPercent 100 50 1000 100 20
       = rustRound (100 * ((((100 : ℕ) : ℚ) + ((50 : ℕ) : ℚ)) / 100)
           / (20 - ((1000 : ℕ) : ℚ) / 100))
     ∧ 0 ≤ cpuPercent 100 50 1000 100 20)
    ∧ cpuPercent 100 50 1000 100 20 = 15 := by
  refine ⟨cpu_percent_matches_round 100 50 1000 100 20 (by norm_num) (by norm_num), ?_⟩
  norm_num [cpuPercent, rustRound, Int.floor_eq_iff]

/-- Claim C2: when elapsed time is not positive, the CPU-percent estimate
is exactly 0, for any tick values. -/
theorem cpu_percent_zero_when_elapsed_nonpos (u s st : ℕ) (tps uptime : ℚ)
    (h : uptime - (st : ℚ) / tps ≤ 0) :
    cpuPercent u s st tps uptime = 0 := by
  simp only [cpuPercent]
  rw [if_neg (not_lt.mpr h)]

/-- Witness for C2: uptime 5 with start ticks 1000 at 100 ticks per
second gives elapsed −5 and estimate 0. -/
theorem cpu_percent_zero_when_elapsed_nonpos_witness :
    cpuPercent 100 50 1000 100 5 = 0 :=
  cpu_percent_zero_when_elapsed_nonpos 100 50 1000 100 5 (by norm_num)

/-- Claim C3 counterexample: for the stat line of a process named `a b`
(a name containing a space), the parser yields `a`, a prefix truncated at
the first space, not the full name `a b`. -/
theorem comm_space_truncated_cex :
    (parseStat statLineSpace 100 20).map Prod.fst = some "a" ∧ "a" ≠ "a b" :=
  ⟨rfl, by decide⟩

/-- Claim C3 amended: the parser takes the second whitespace-split token
and strips every leading `(` and trailing `)`: a name with an interior
closing parenthesis and no whitespace, rendered `(weird)name)`, is
recovered in full as `weird)name`, but trailing `)` characters of the
name are stripped (`(xyz))` yields `xyz`) and a name with a space is
truncated at the first space (`(a b)` yields `a`). -/
theorem comm_trim_behavior :
    (parseStat statLineWeird 100 20).map Prod.fst = some "weird)name"
    ∧ (parseStat statLineTrail 100 20).map Prod.fst = some "xyz"
    ∧ (parseStat statLineSpace 100 20).map Prod.fst = some "a" :=
  ⟨rfl, rfl, rfl⟩

/-- Claim C4 counterexample: with a readable stat record but a
permission-denied status record, the whole snapshot fails with the
status read's error instead of succeeding with memory reported as 0. -/
theorem status_error_propagates_cex :
    getProcessMetrics 1234 ⟨.ok statLineMyproc, .error .permissionDenied, .ok ""⟩ 100 20
      = some (.error .permissionDenied) :=
  rfl

/-- Claim C4 amended: a failed read of the status record, or of the io
record, propagates as a failure of the whole snapshot (the `?` operator
in `get_process_metrics`); only missing lines inside a successful read
degrade to zero. -/
theorem status_io_errors_propagate :
    (∀ (pid : ℕ) (statContent : String) (e : IOError)
       (ioR : Except IOError String) (tps uptime : ℚ) (pr : String × ℚ),
       parseStat statContent tps uptime = some pr →
       getProcessMetrics pid ⟨.ok statContent, .error e, ioR⟩ tps uptime
         = some (.error e))
    ∧ (∀ (pid : ℕ) (statContent statusContent : String) (e : IOError)
         (tps uptime : ℚ) (pr : String × ℚ) (m : ℕ),
         parseStat statContent tps uptime = some pr →
         parseStatus statusContent = some m →
         getProcessMetrics pid ⟨.ok statContent, .ok statusContent, .error e⟩
           tps uptime = some (.error e)) := by
  constructor
  · intro pid sc e ioR tps up pr hps
    obtain ⟨comm, cpu⟩ := pr
    simp only [getProcessMetrics, hps]
  · intro pid sc stc e tps up pr m hps hst
    obtain ⟨comm, cpu⟩ := pr
    simp only [getProcessMetrics, hps, hst]

/-- Witness for the amended C4 at concrete inputs: a permission-denied
status read and a failed io read each make the snapshot fail with that
error. -/
theorem status_io_errors_propagate_witness :
    getProcessMetrics 1 ⟨.ok statLineMyproc, .error .permissionDenied, .ok ""⟩ 100 20
      = some (.error .permissionDenied)
    ∧ getProcessMetrics 1 ⟨.ok statLineMyproc, .ok "", .error .other⟩ 100 20
      = some (.error .other) :=
  ⟨status_io_errors_propagate.1 1 statLineMyproc .permissionDenied (.ok "") 100 20
     ("myproc", cpuPercent 100 50 1000 100 20) rfl,
   status_io_errors_propagate.2 1 statLineMyproc "" .other 100 20
     ("myproc", cpuPercent 100 50 1000 100 20) 0 rfl rfl⟩

/-- Claim C5 counterexample: with the mandatory user-ticks field (index
13) being the non-numeric token `abc`, the snapshot succeeds (`.ok`, no
Malformed error), the field silently defaulted so that the CPU estimate
is computed with user ticks 0. -/
theorem nonnumeric_field_defaults_cex :
    getProcessMetrics 1234 ⟨.ok statLineAbc, .ok "", .ok ""⟩ 100 20
      = some (.ok ⟨1234, "myproc", "user", cpuPercent 0 50 1000 100 20, 0, 0, 0⟩) :=
  rfl

/-- Claim C5 amended: a mandatory numeric field that fails to parse is
silently substituted with 0 (`unwrap_or(0)`) and stat parsing succeeds;
no Malformed error is reported or even representable in the reader's
result type. -/
theorem nonnumeric_field_defaults :
    ∀ tps uptime : ℚ,
      parseStat statLineAbc tps uptime
        = some ("myproc", cpuPercent 0 50 1000 tps uptime) :=
  fun _ _ => rfl

/-- Helper for C6: a collection pass over any entry list, in an
environment where one pid's stat read fails with NotFound, equals the
pass over the entries with that pid's entries filtered out. -/
lemma collectAll_skips_notfound (env : ℕ → ProcFiles) (tps uptime : ℚ)
    (pid : ℕ) (hs : (env pid).statFile = .error .notFound) :
    ∀ entries : List String,
      collectAll entries env tps uptime
        = collectAll (entries.filter (fun e => parseU32 e != some pid))
            env tps uptime := by
  intro entries
  induction entries with
  | nil => rfl
  | cons e rest ih =>
    rcases hp : parseU32 e with _ | q
    · have hfil : ((none : Option ℕ) != some pid) = true := rfl
      simp only [List.filter_cons, hp, hfil, if_true, collectAll]
      exact ih
    · by_cases hq : q = pid
      · subst hq
        have hfil : (some q != some q) = false := by simp
        simp only [List.filter_cons, hp, hfil, Bool.false_eq_true, if_false,
          collectAll, getProcessMetrics, hs]
        exact ih
      · have hfil : (some q != some pid) = true :=
          bne_iff_ne.mpr (by simpa using hq)
        simp only [List.filter_cons, hp, hfil, if_true, collectAll]
        rcases hm : getProcessMetrics q (env q) tps uptime with _ | em
        · simp [hm]
        · rcases em with e2 | m <;> simp [hm, ih]

/-- Claim C6: a snapshot of a pid whose stat file cannot be opened
because the process no longer exists returns NotFound, and a full
collection pass over any enumerated entries omits that pid from its
output while processing every other entry as before, aborting nothing. -/
theorem notfound_skipped :
    (∀ (pid : ℕ) (stR ioR : Except IOError String) (tps uptime : ℚ),
       getProcessMetrics pid ⟨.error .notFound, stR, ioR⟩ tps uptime
         = some (.error .notFound))
    ∧ (∀ (entries : List String) (env : ℕ → ProcFiles)
         (tps uptime : ℚ) (pid : ℕ),
         (env pid).statFile = .error .notFound →
         collectAll entries env tps uptime
           = collectAll (entries.filter (fun e => parseU32 e != some pid))
               env tps uptime) :=
  ⟨fun _ _ _ _ _ => rfl,
   fun entries env tps uptime pid hs =>
     collectAll_skips_notfound env tps uptime pid hs entries⟩

/-- Witness for C6: in an all-NotFound environment the snapshot of pid 5
reports NotFound, and the pass over entries `5, 7` equals the pass over
the filtered entries, which are exactly `7`. -/
theorem notfound_skipped_witness :
    getProcessMetrics 5 ⟨.error .notFound, .ok "", .ok ""⟩ 100 20
      = some (.error .notFound)
    ∧ collectAll ["5", "7"] (fun _ => ⟨.error .notFound, .ok "", .ok ""⟩) 100 20
      = collectAll (["5", "7"].filter (fun e => parseU32 e != some 5))
          (fun _ => ⟨.error .notFound, .ok "", .ok ""⟩) 100 20
    ∧ ["5", "7"].filter (fun e => parseU32 e != some 5) = ["7"] :=
  ⟨notfound_skipped.1 5 (.ok "") (.ok "") 100 20,
   notfound_skipped.2 ["5", "7"] (fun _ => ⟨.error .notFound, .ok "", .ok ""⟩)
     100 20 5 rfl,
   by decide⟩

/-- Helper for C7: the `parse_status` line loop returns 0 when no line
starts with `VmRSS:`. -/
lemma statusGo_all_miss :
    ∀ ls : List String,
      (∀ l ∈ ls, prefOf "VmRSS:".data l.data = false) → statusGo ls = some 0 := by
  intro ls
  induction ls with
  | nil => intro _; rfl
  | cons l rest ih =>
    intro h
    have hl : prefOf "VmRSS:".data l.data = false := h l (List.mem_cons_self l rest)
    simp only [statusGo, hl, Bool.false_eq_true, if_false]
    exact ih fun x hx => h x (List.mem_cons_of_mem l hx)

/-- Claim C7: a status record containing no line with prefix `VmRSS:`
parses successfully and reports resident memory 0. -/
theorem no_vmrss_yields_zero (content : String)
    (h : ∀ l ∈ strLines content, prefOf "VmRSS:".data l.data = false) :
    parseStatus content = some 0 :=
  statusGo_all_miss _ h

/-- Witness for C7 on a status record with other lines but no `VmRSS:`
line. -/
theorem no_vmrss_yields_zero_witness :
    parseStatus "Name: bash\nVmSize: 100 kB" = some 0 :=
  no_vmrss_yields_zero "Name: bash\nVmSize: 100 kB" (by decide)

/-- Claim C8: enumeration keeps exactly the directory entries whose name
parses as a `u32`, in order; non-numeric entries such as `self` and
`net` are skipped without any error. -/
theorem enumerate_numeric_only :
    (∀ (entries : List String) (n : ℕ),
       n ∈ enumeratePids entries ↔ ∃ s ∈ entries, parseU32 s = some n)
    ∧ enumeratePids ["123", "self", "net"] = [123] := by
  constructor
  · intro entries n
    simp [enumeratePids, List.mem_filterMap]
  · rfl

/-- Claim C9: on the spec's meminfo example the computation finds
used_kb = 2048000 − 512000 − 100000 − 400000 = 1036000 and reports
(total, used) = (2000 MB, 1011 MB) by truncating division by 1024. -/
theorem memory_stats_example :
    u64sub (u64sub (u64sub 2048000 512000) 100000) 400000 = 1036000
    ∧ getMemoryStats
        "MemTotal: 2048000 kB\nMemFree: 512000 kB\nBuffers: 100000 kB\nCached: 400000 kB\n"
      = some (2000, 1011) :=
  ⟨rfl, rfl⟩

/-- Helper for C10: a stat content with at least 22 whitespace-separated
tokens parses without reaching the panic. -/
lemma parseStat_isSome_of_long (content : String) (tps uptime : ℚ)
    (h : 22 ≤ (splitWhitespace content).length) :
    (parseStat content tps uptime).isSome = true := by
  simp only [parseStat]
  rw [List.getElem?_eq_getElem (show 1 < (splitWhitespace content).length by omega),
      List.getElem?_eq_getElem (show 13 < (splitWhitespace content).length by omega),
      List.getElem?_eq_getElem (show 14 < (splitWhitespace content).length by omega),
      List.getElem?_eq_getElem (show 21 < (splitWhitespace content).length by omega)]
  rfl

/-- Helper for C10: a stat content with fewer than 22 tokens panics
(index 21 is out of bounds). -/
lemma parseStat_none_of_short (content : String) (tps uptime : ℚ)
    (h : (splitWhitespace content).length < 22) :
    parseStat content tps uptime = none := by
  have h21 : (splitWhitespace content)[21]? = none :=
    List.getElem?_eq_none (by omega)
  rcases hx : (splitWhitespace content)[1]? with _ | p1 <;>
    rcases hy : (splitWhitespace content)[13]? with _ | p13 <;>
      rcases hz : (splitWhitespace content)[14]? with _ | p14 <;>
        simp [parseStat, hx, hy, hz, h21]

/-- Helper for C10: the status line loop reaches no panic when every
`VmRSS:` line has at least two tokens. -/
lemma statusGo_isSome_of_bounds (ls : List String)
    (h : ∀ l ∈ ls, prefOf "VmRSS:".data l.data = true →
      2 ≤ (splitWhitespace l).length) :
    (statusGo ls).isSome = true := by
  induction ls with
  | nil => rfl
  | cons l rest ih =>
    simp only [statusGo]
    by_cases hp : prefOf "VmRSS:".data l.data = true
    · rw [if_pos hp]
      have h2 : 1 < (splitWhitespace l).length := by
        have := h l (List.mem_cons_self l rest) hp
        omega
      rw [List.getElem?_eq_getElem h2]
      rfl
    · rw [if_neg hp]
      exact ih fun x hx hpx => h x (List.mem_cons_of_mem l hx) hpx

/-- Helper for C10: the status line loop panics only because of a
`VmRSS:` line with fewer than two tokens. -/
lemma statusGo_none_reason (ls : List String) (h : statusGo ls = none) :
    ∃ l ∈ ls, prefOf "VmRSS:".data l.data = true
      ∧ (splitWhitespace l).length < 2 := by
  induction ls with
  | nil => exact absurd h (by simp [statusGo])
  | cons l rest ih =>
    by_cases hp : prefOf "VmRSS:".data l.data = true
    · refine ⟨l, List.mem_cons_self l rest, hp, ?_⟩
      simp only [statusGo] at h
      rw [if_pos hp] at h
      rcases hg : (splitWhitespace l)[1]? with _ | t
      · have := List.getElem?_eq_none_iff.mp hg
        omega
      · rw [hg] at h
        simp at h
    · simp only [statusGo] at h
      rw [if_neg hp] at h
      obtain ⟨x, hx, hpx, hlen⟩ := ih h
      exact ⟨x, List.mem_cons_of_mem l hx, hpx, hlen⟩

/-- Helper for C10: the io line loop panics exactly when some
`read_bytes:` or `write_bytes:` line has fewer than two tokens,
independently of the accumulated counters. -/
lemma ioGo_none_iff (ls : List String) :
    ∀ r w, ioGo ls r w = none ↔
      ∃ l ∈ ls,
        (prefOf "read_bytes:".data l.data = true
          ∨ prefOf "write_bytes:".data l.data = true)
        ∧ (splitWhitespace l).length < 2 := by
  induction ls with
  | nil =>
    intro r w
    simp [ioGo]
  | cons l rest ih =>
    intro r w
    by_cases hr : prefOf "read_bytes:".data l.data = true
    · rcases hg : (splitWhitespace l)[1]? with _ | t
      · simp only [ioGo]
        rw [if_pos hr, hg]
        constructor
        · intro _
          refine ⟨l, List.mem_cons_self l rest, Or.inl hr, ?_⟩
          have := List.getElem?_eq_none_iff.mp hg
          omega
        · intro _
          rfl
      · simp only [ioGo]
        rw [if_pos hr, hg, ih]
        constructor
        · rintro ⟨x, hx, hc, hl⟩
          exact ⟨x, List.mem_cons_of_mem l hx, hc, hl⟩
        · rintro ⟨x, hx, hc, hl⟩
          rcases List.mem_cons.mp hx with rfl | hx2
          · exfalso
            have hnone : (splitWhitespace x)[1]? = none :=
              List.getElem?_eq_none (by omega)
            rw [hnone] at hg
            cases hg
          · exact ⟨x, hx2, hc, hl⟩
    · by_cases hw : prefOf "write_bytes:".data l.data = true
      · rcases hg : (splitWhitespace l)[1]? with _ | t
        · simp only [ioGo]
          rw [if_neg hr, if_pos hw, hg]
          constructor
          · intro _
            refine ⟨l, List.mem_cons_self l rest, Or.inr hw, ?_⟩
            have := List.getElem?_eq_none_iff.mp hg
            omega
          · intro _
            rfl
        · simp only [ioGo]
          rw [if_neg hr, if_pos hw, hg, ih]
          constructor
          · rintro ⟨x, hx, hc, hl⟩
            exact ⟨x, List.mem_cons_of_mem l hx, hc, hl⟩
          · rintro ⟨x, hx, hc, hl⟩
            rcases List.mem_cons.mp hx with rfl | hx2
            · exfalso
              have hnone : (splitWhitespace x)[1]? = none :=
                List.getElem?_eq_none (by omega)
              rw [hnone] at hg
              cases hg
            · exact ⟨x, hx2, hc, hl⟩
      · simp only [ioGo]
        rw [if_neg hr, if_neg hw, ih]
        constructor
        · rintro ⟨x, hx, hc, hl⟩
          exact ⟨x, List.mem_cons_of_mem l hx, hc, hl⟩
        · rintro ⟨x, hx, hc, hl⟩
          rcases List.mem_cons.mp hx with rfl | hx2
          · rcases hc with hc | hc
            · exact absurd hc hr
            · exact absurd hc hw
          · exact ⟨x, hx2, hc, hl⟩

/-- Claim C10 counterexample: a status record may violate the stated
precondition (it contains the matching line `VmRSS:` with fewer than two
tokens) and still return normally instead of panicking, because the
first `VmRSS:` line already returned: the second one is unreachable. -/
theorem unreachable_vmrss_no_panic_cex :
    parseStatus "VmRSS: 5 kB\nVmRSS:" = some 5
    ∧ "VmRSS:" ∈ strLines "VmRSS: 5 kB\nVmRSS:"
    ∧ prefOf "VmRSS:".data "VmRSS:".data = true
    ∧ (splitWhitespace "VmRSS:").length < 2 :=
  ⟨rfl, by decide, by decide, by decide⟩

/-- Claim C10 amended: under the preconditions all indexing is in-bounds
and no panic occurs (stat: at least 22 tokens; status/io: every matching
line has at least two tokens).  Conversely, a stat content with fewer
than 22 tokens always panics, an io content panics exactly when some
matching line has fewer than two tokens, and a status read panics only
when its panic is caused by a short `VmRSS:` line — but a short `VmRSS:`
line occurring after a valid one is unreachable and does not panic. -/
theorem index_bounds_amended :
    (∀ (content : String) (tps uptime : ℚ),
       22 ≤ (splitWhitespace content).length →
       (parseStat content tps uptime).isSome = true)
    ∧ (∀ (content : String) (tps uptime : ℚ),
         (splitWhitespace content).length < 22 →
         parseStat content tps uptime = none)
    ∧ (∀ content : String,
         (∀ l ∈ strLines content, prefOf "VmRSS:".data l.data = true →
            2 ≤ (splitWhitespace l).length) →
         (parseStatus content).isSome = true)
    ∧ (∀ content : String, parseStatus content = none →
         ∃ l ∈ strLines content, prefOf "VmRSS:".data l.data = true
           ∧ (splitWhitespace l).length < 2)
    ∧ (∀ content : String, parseIO content = none ↔
         ∃ l ∈ strLines content,
           (prefOf "read_bytes:".data l.data = true
             ∨ prefOf "write_bytes:".data l.data = true)
           ∧ (splitWhitespace l).length < 2) :=
  ⟨parseStat_isSome_of_long,
   parseStat_none_of_short,
   fun _ h => statusGo_isSome_of_bounds _ h,
   fun _ h => statusGo_none_reason _ h,
   fun _ => ioGo_none_iff _ 0 0⟩

/-- Witness for the amended C10 at concrete inputs: a 22-token stat line
parses, a 3-token one panics, a well-formed status parses, the status
panic on `VmRSS:` is explained by that line, and the io read of
`write_bytes:` panics. -/
theorem index_bounds_amended_witness :
    (parseStat statLineMyproc 100 20).isSome = true
    ∧ parseStat "1 (a) S" 100 20 = none
    ∧ (parseStatus "VmRSS: 5 kB").isSome = true
    ∧ (∃ l ∈ strLines "VmRSS:", prefOf "VmRSS:".data l.data = true
         ∧ (splitWhitespace l).length < 2)
    ∧ parseIO "write_bytes:" = none :=
  ⟨index_bounds_amended.1 statLineMyproc 100 20 (by decide),
   index_bounds_amended.2.1 "1 (a) S" 100 20 (by decide),
   index_bounds_amended.2.2.1 "VmRSS: 5 kB" (by decide),
   index_bounds_amended.2.2.2.1 "VmRSS:" rfl,
   (index_bounds_amended.2.2.2.2 "write_bytes:").mpr
     ⟨"write_bytes:", by decide, by decide⟩⟩

end ProcInspector
